import Mathlib

/-!
Verification of the TUTGAK-Stitcher core against its specification.

The development shallowly embeds the Python sources:
* `src/homography_calculator.py` — DLT least-squares solver, reprojection
  error, and the RANSAC round (exact rational arithmetic; the SVD's minimal
  right singular vector is a parameter `svdLast`, since its value is the one
  genuinely numerical ingredient; every returned claim instantiates it with a
  vector that is an exact null vector of the stacked DLT matrix).
* `src/util.py` — shoelace area and `mean_shift_gray` (OpenCV's 8-bit
  BGRA→GRAY conversion is the documented fixed-point formula
  `(R*4899 + G*9617 + B*1868 + 2^13) >> 14`; the numpy store of the shifted
  float channels back into the uint8 image truncates, which after clamping
  to [0,255] is the floor).
* `src/stitcher.py` — the per-channel blend arithmetic of `__paste_image`
  (lines 349-370) at pixel level, and the control flow of `stitch`
  (attempt loop, matcher switch, sample-size clamp, RANSAC budget,
  area-ratio gate, bounded whole-image retry, history append).  External
  primitives (SIFT, the two cv2 matchers, warp, canvas blending, the clock)
  and the randomized RANSAC call are abstracted as oracle fields of
  `StitchEnv`; the claims settled at this level depend only on the control
  flow and on which state fields are written.
-/

namespace TutgakStitcher

/-- A correspondence `(x1, y1, x2, y2)`: a point of the new frame paired with
a point of the reference (one row of the `matches` array). -/
structure Pair where
  x1 : ℚ
  y1 : ℚ
  x2 : ℚ
  y2 : ℚ
deriving DecidableEq

/-- A 3×3 rational matrix, row-major (`a12` is row 1, column 2). -/
structure Mat3 where
  a00 : ℚ
  a01 : ℚ
  a02 : ℚ
  a10 : ℚ
  a11 : ℚ
  a12 : ℚ
  a20 : ℚ
  a21 : ℚ
  a22 : ℚ
deriving DecidableEq

/-- `np.identity(3)` (stitcher.py line 132). -/
def mat3Id : Mat3 := ⟨1, 0, 0, 0, 1, 0, 0, 0, 1⟩

/-- The zero 3×3 matrix. -/
def mat3Zero : Mat3 := ⟨0, 0, 0, 0, 0, 0, 0, 0, 0⟩

/-- Determinant of a 3×3 matrix (`np.linalg.det`, image_record.py line 45). -/
def det3 (H : Mat3) : ℚ :=
  H.a00 * (H.a11 * H.a22 - H.a12 * H.a21)
    - H.a01 * (H.a10 * H.a22 - H.a12 * H.a20)
    + H.a02 * (H.a10 * H.a21 - H.a11 * H.a20)

/-- Rank of a 3×3 rational matrix, computed combinatorially: 3 when the
determinant is nonzero, else 2 when some 2×2 minor is nonzero, else 1 when
the matrix is nonzero, else 0.  This embeds `np.linalg.matrix_rank`
(homography_calculator.py line 103) in exact arithmetic: numpy counts
singular values above a tolerance relative to the largest one, so for the
exact inputs used below (the identity, rank 3) and in the zero/nonzero
distinction the Python truthiness `matrix_rank(H) != 0` agrees with
`mrank3 H ≠ 0` (the largest singular value of a nonzero matrix always
exceeds the relative tolerance). -/
def mrank3 (H : Mat3) : ℕ :=
  if det3 H ≠ 0 then 3
  else if H.a00 * H.a11 - H.a01 * H.a10 ≠ 0 ∨ H.a00 * H.a12 - H.a02 * H.a10 ≠ 0 ∨
          H.a01 * H.a12 - H.a02 * H.a11 ≠ 0 ∨ H.a00 * H.a21 - H.a01 * H.a20 ≠ 0 ∨
          H.a00 * H.a22 - H.a02 * H.a20 ≠ 0 ∨ H.a01 * H.a22 - H.a02 * H.a21 ≠ 0 ∨
          H.a10 * H.a21 - H.a11 * H.a20 ≠ 0 ∨ H.a10 * H.a22 - H.a12 * H.a20 ≠ 0 ∨
          H.a11 * H.a22 - H.a12 * H.a21 ≠ 0 then 2
  else if H ≠ mat3Zero then 1 else 0

/-- `V[-1].reshape(3, 3)` (homography_calculator.py line 72): the flattened
9-vector read back row-major. -/
def mat3OfVec (v : List ℚ) : Mat3 :=
  ⟨v.getD 0 0, v.getD 1 0, v.getD 2 0, v.getD 3 0, v.getD 4 0,
   v.getD 5 0, v.getD 6 0, v.getD 7 0, v.getD 8 0⟩

/-- Entrywise division `H /= c` (homography_calculator.py lines 73 and 122).
When `c = 0` numpy produces inf/nan entries with only a warning; in ℚ the
division yields 0 — either way no exception is raised and a matrix whose
bottom-right entry is not 1 is returned. -/
def mat3Div (H : Mat3) (c : ℚ) : Mat3 :=
  ⟨H.a00 / c, H.a01 / c, H.a02 / c, H.a10 / c, H.a11 / c, H.a12 / c,
   H.a20 / c, H.a21 / c, H.a22 / c⟩

/-- Matrix product `np.dot(A, B)` of 3×3 matrices (stitcher.py line 243). -/
def mat3Mul (A B : Mat3) : Mat3 :=
  ⟨A.a00 * B.a00 + A.a01 * B.a10 + A.a02 * B.a20,
   A.a00 * B.a01 + A.a01 * B.a11 + A.a02 * B.a21,
   A.a00 * B.a02 + A.a01 * B.a12 + A.a02 * B.a22,
   A.a10 * B.a00 + A.a11 * B.a10 + A.a12 * B.a20,
   A.a10 * B.a01 + A.a11 * B.a11 + A.a12 * B.a21,
   A.a10 * B.a02 + A.a11 * B.a12 + A.a12 * B.a22,
   A.a20 * B.a00 + A.a21 * B.a10 + A.a22 * B.a20,
   A.a20 * B.a01 + A.a21 * B.a11 + A.a22 * B.a21,
   A.a20 * B.a02 + A.a21 * B.a12 + A.a22 * B.a22⟩

/-- Dot product of two coefficient lists. -/
def dotList (xs ys : List ℚ) : ℚ :=
  (List.zipWith (fun a b => a * b) xs ys).sum

/-- The stacked DLT matrix `rows` built by `calculate_homography`
(homography_calculator.py lines 50-70): for each pair, with
`p1 = (x1, y1, 1)` and `p2 = (x2, y2, 1)`,
`row1 = [0,0,0, x1,y1,1, -y2*x1, -y2*y1, -y2]` and
`row2 = [x1,y1,1, 0,0,0, -x2*x1, -x2*y1, -x2]`, appended in that order. -/
def rowsOf (pairs : List Pair) : List (List ℚ) :=
  (pairs.map (fun p =>
    [[0, 0, 0, p.x1, p.y1, 1, -p.y2 * p.x1, -p.y2 * p.y1, -p.y2],
     [p.x1, p.y1, 1, 0, 0, 0, -p.x2 * p.x1, -p.x2 * p.y1, -p.x2]])).flatten

/-- `HomographyCalculator.calculate_homography` (homography_calculator.py
lines 42-74).  `svdLast` stands for the last row of `V` in
`_, _, V = np.linalg.svd(rows)`; the function then reshapes it to 3×3 and
normalizes by the bottom-right entry.  With an empty pair list `np.array([])`
is one-dimensional and `np.linalg.svd` raises `LinAlgError`, modeled as
`none`; in every other case the code returns a matrix — there is no arity
check, no rank/degeneracy check and no determinant check. -/
def calculate_homography (svdLast : List (List ℚ) → List ℚ)
    (pairs : List Pair) : Option Mat3 :=
  match rowsOf pairs with
  | [] => none
  | _ :: _ =>
    let H := mat3OfVec (svdLast (rowsOf pairs))
    some (mat3Div H H.a22)

/-- `HomographyCalculator.calculate_homography_error` (homography_calculator.py
lines 10-40): each source point `(x1, y1, 1)` is pushed through `H`,
dehomogenized, and compared with `(x2, y2)`; the result is the squared
Euclidean distance per point (`np.linalg.norm(...) ** 2`, exact in ℚ). -/
def calculate_homography_error (points : List Pair) (H : Mat3) : List ℚ :=
  points.map (fun p =>
    let e0 := H.a00 * p.x1 + H.a01 * p.y1 + H.a02
    let e1 := H.a10 * p.x1 + H.a11 * p.y1 + H.a12
    let e2 := H.a20 * p.x1 + H.a21 * p.y1 + H.a22
    (p.x2 - e0 / e2) ^ 2 + (p.y2 - e1 / e2) ^ 2)

/-- Helper for `whereLt`: positions (counting from `j`) of the entries
strictly below `t`, in ascending order. -/
def whereLtAux (t : ℚ) : List ℚ → ℕ → List ℕ
  | [], _ => []
  | e :: es, j =>
    if e < t then j :: whereLtAux t es (j + 1) else whereLtAux t es (j + 1)

/-- `np.where(errors < threshold)[0]` (homography_calculator.py line 109):
the positions of `errors` holding a value strictly below `threshold`, in
ascending order. -/
def whereLt (errors : List ℚ) (t : ℚ) : List ℕ :=
  whereLtAux t errors 0

/-- Integer-array indexing `matches[idx]` (homography_calculator.py
line 110). -/
def fancyIndex (xs : List Pair) (idx : List ℕ) : List Pair :=
  idx.filterMap (fun j => xs[j]?)

/-- The local state of the RANSAC loop (homography_calculator.py
lines 92-95): the loop counter `i`, `num_best_inliers` and `best_inliers`. -/
structure RState where
  i : ℤ
  num_best_inliers : ℕ
  best_inliers : Option (List Pair)
deriving DecidableEq

/-- The scoring segment of a RANSAC round (homography_calculator.py
lines 106-117): errors are computed over the drawn sample `points` (not over
`matches`), positions with error below the threshold are collected, the FULL
`matches` array is indexed with those sample-local positions, a strictly
larger inlier count replaces the best (a copy, hence by value), and only
then is the loop counter advanced. -/
def ransacScore (matchesL : List Pair) (threshold : ℚ) (points : List Pair)
    (H : Mat3) (s : RState) : RState :=
  let errors := calculate_homography_error points H
  let idx := whereLt errors threshold
  let inliers := fancyIndex matchesL idx
  let s' := if inliers.length > s.num_best_inliers then
      { s with best_inliers := some inliers, num_best_inliers := inliers.length }
    else s
  { s' with i := s'.i + 1 }

/-- One execution of the RANSAC while-body given the drawn sample
(homography_calculator.py lines 96-117).  The guard is line 103,
`if np.linalg.matrix_rank(H): continue` — in Python the rank is truthy
exactly when it is nonzero, and the `continue` jumps back to the loop test
BEFORE the `i += 1` of line 117, so a skipped round leaves the entire state
(including the counter) unchanged.  `none` models a propagated
`LinAlgError`. -/
def ransacRound (svdLast : List (List ℚ) → List ℚ) (matchesL : List Pair)
    (threshold : ℚ) (points : List Pair) (s : RState) : Option RState :=
  match calculate_homography svdLast points with
  | none => none
  | some H =>
    if mrank3 H ≠ 0 then some s
    else some (ransacScore matchesL threshold points H s)

/-- The tail of `ransac` after the loop (homography_calculator.py
lines 119-123): `None` when no inlier set was recorded, otherwise a refit
over the best inliers normalized once more by its bottom-right entry.  The
outer `Option` models a propagated exception, the inner one the Python
`Optional` result. -/
def ransacFinal (svdLast : List (List ℚ) → List ℚ) (s : RState) :
    Option (Option Mat3) :=
  match s.best_inliers with
  | none => some none
  | some best =>
    match calculate_homography svdLast best with
    | none => none
    | some H => some (some (mat3Div H H.a22))

/-- Follows the spec's words (§4.3): compute reprojection error for all
matches in the full set and classify as inliers those with squared error
below the threshold.  Stated for comparison with `ransacScore`. -/
def spec_inlier_set (matchesL : List Pair) (H : Mat3) (threshold : ℚ) :
    List Pair :=
  matchesL.filter (fun m =>
    decide ((calculate_homography_error [m] H).getD 0 0 < threshold))

/-- A BGRA pixel with 8-bit channels, channel order as in the cv2 arrays. -/
structure PixelN where
  b : ℕ
  g : ℕ
  r : ℕ
  a : ℕ
deriving DecidableEq

/-- OpenCV's 8-bit BGRA→GRAY conversion (used at util.py line 38):
`(R*4899 + G*9617 + B*1868 + 2^13) >> 14` with round-half-up built into the
added constant. -/
def grayU8 (px : PixelN) : ℕ :=
  (px.r * 4899 + px.g * 9617 + px.b * 1868 + 8192) / 16384

/-- `np.mean(gray)` (util.py line 40), exact as a rational. -/
def grayMean (img : List PixelN) : ℚ :=
  ((img.map grayU8).sum : ℚ) / (img.length : ℚ)

/-- The clamp of the inner `mean_shift` closure (util.py lines 44-50):
shift first, then clip to [0, 255]. -/
def clamp255 (x : ℚ) : ℚ :=
  if x < 0 then 0 else if x > 255 then 255 else x

/-- Storing a float channel back into the uint8 image
(util.py lines 57-59): numpy's float→uint8 cast truncates toward zero,
which for the clamped values in [0, 255] is the floor. -/
def toU8 (x : ℚ) : ℕ :=
  (Int.toNat ⌊x⌋)

/-- `Util.mean_shift_gray` (util.py lines 26-61): compute the grayscale mean,
`delta = mean − dest_mean`, shift each of B, G, R by `−delta` with clamping,
store back (truncating), and leave A untouched. -/
def mean_shift_gray (img : List PixelN) (dest_mean : ℚ) : List PixelN :=
  let delta := grayMean img - dest_mean
  img.map (fun px =>
    ⟨toU8 (clamp255 ((px.b : ℚ) - delta)),
     toU8 (clamp255 ((px.g : ℚ) - delta)),
     toU8 (clamp255 ((px.r : ℚ) - delta)),
     px.a⟩)

/-- A 2-D point (a dehomogenized transformed corner). -/
structure Pt2 where
  x : ℚ
  y : ℚ
deriving DecidableEq

/-- The four transformed corners, in the column order of the `corners`
matrix of stitcher.py lines 200-204. -/
structure Quad where
  p1 : Pt2
  p2 : Pt2
  p3 : Pt2
  p4 : Pt2
deriving DecidableEq

/-- Push one corner through `H` and dehomogenize (stitcher.py
lines 205-206; a zero third coordinate gives inf/nan in numpy, 0 in ℚ). -/
def applyH (H : Mat3) (x y : ℚ) : Pt2 :=
  let e0 := H.a00 * x + H.a01 * y + H.a02
  let e1 := H.a10 * x + H.a11 * y + H.a12
  let e2 := H.a20 * x + H.a21 * y + H.a22
  ⟨e0 / e2, e1 / e2⟩

/-- `new_corners` for an image of shape `(height, width)` (stitcher.py
lines 199-207): columns `(0,0), (width,0), (width,height), (0,height)`. -/
def transformedCorners (H : Mat3) (width height : ℕ) : Quad :=
  ⟨applyH H 0 0, applyH H (width : ℚ) 0,
   applyH H (width : ℚ) (height : ℚ), applyH H 0 (height : ℚ)⟩

/-- `Util.calculate_area` (util.py lines 11-24): signed shoelace area of the
quadrilateral given by the four points in order. -/
def calculate_area (q : Quad) : ℚ :=
  let a1 := q.p1.x * q.p2.y + q.p2.x * q.p3.y + q.p3.x * q.p4.y + q.p4.x * q.p1.y
  let a2 := q.p1.y * q.p2.x + q.p2.y * q.p3.x + q.p3.y * q.p4.x + q.p4.y * q.p1.x
  (1 / 2) * (a1 - a2)

/-- `area_ratio = new_area / (width * height)` (stitcher.py lines 209-210). -/
def areaQuot (H : Mat3) (width height : ℕ) : ℚ :=
  calculate_area (transformedCorners H width height) / ((width : ℚ) * (height : ℚ))

/-- `arr[arr > 0] = 1` applied elementwise to one channel value
(stitcher.py lines 350-354; the arrays hold nonnegative uint8/float
values, so this is the 0/1 presence indicator). -/
def maskPos (x : ℚ) : ℚ :=
  if 0 < x then 1 else x

/-- One channel element of the weighted-overlap blend (stitcher.py
lines 349-370): the two presence masks are summed, positions where the sum
exceeds 1 (both present) get weights `p` and `1 − p`, every other position
keeps weight `s ∈ {0, 1}` on both sides, and the result is
`weight_new * new + old * weight_old`.  All array operations there are
elementwise, so the pixel result is this function mapped over channels. -/
def blendChannel (p n o : ℚ) : ℚ :=
  let s := maskPos n + maskPos o
  let wn := if 1 < s then p else s
  let wo := if 1 < s then 1 - p else s
  wn * n + o * wo

/-- The blend of stitcher.py lines 349-370 restricted to one pixel of the
overlap region: `blendChannel` mapped over the channels. -/
def codeBlendPixel (p : ℚ) (n o : List ℚ) : List ℚ :=
  List.zipWith (blendChannel p) n o

/-- Presence of a pixel in the sense of the spec's words (§4.5): some
channel value is nonzero. -/
def pixelPresent (px : List ℚ) : Bool :=
  px.any (fun c => decide (c ≠ 0))

/-- Follows the spec's words (§4.5 weighted-overlap policy): classify each
PIXEL as present when ANY channel value is nonzero; where only one is
present it wins outright, where both are present every channel is blended
`p·new + (1−p)·old`, where neither is present the value stays zero.  Stated
for comparison with `codeBlendPixel`. -/
def specBlendPixel (p : ℚ) (n o : List ℚ) : List ℚ :=
  if pixelPresent n && pixelPresent o then
    List.zipWith (fun a b => p * a + (1 - p) * b) n o
  else if pixelPresent n then n
  else if pixelPresent o then o
  else n.map (fun _ => 0)

/-- The two matcher strategies of the controller: `flann` is the
approximate `cv2.FlannBasedMatcher`, `bf` the exhaustive `cv2.BFMatcher`
(stitcher.py lines 82-89). -/
inductive MatcherKind where
  | flann
  | bf
deriving DecidableEq

/-- `if random_point_count < 4: random_point_count = 4` (stitcher.py
lines 164-165): the clamp applied at the top of every attempt, before any
use of the sample size. -/
def clamp4 (rpc : ℤ) : ℤ :=
  if rpc < 4 then 4 else rpc

/-- `matcher = self.flann_matcher; if i >= 2: matcher = self.bf_matcher`
(stitcher.py lines 168-170). -/
def matcherOf (i : ℤ) : MatcherKind :=
  if 2 ≤ i then MatcherKind.bf else MatcherKind.flann

/-- One attempt of the homography-calculation loop, as observed from
outside: its (already incremented) index `i`, the matcher chosen, the
sample size actually used this attempt (after the clamp), and, when RANSAC
was invoked, the iteration budget passed to it. -/
structure Attempt where
  i : ℤ
  matcher : MatcherKind
  rpcUsed : ℤ
  ransacIters : Option ℤ
deriving DecidableEq

/-- The constructor parameters of `Stitcher` (stitcher.py lines 27-80). -/
structure StitchCfg where
  target_image_mean : ℚ
  legacy_paste : Bool
  new_image_percentage : ℚ
  min_homography_determinant : ℚ
  filter_threshold : ℚ
  max_iterations_before_fail : ℤ
  stitch_with_whole_image_on_fail : Bool
  initial_random_point_count : ℤ
  ransac_threshold : ℚ
  initial_ransac_iterations : ℤ
  ransac_steps : ℤ
deriving DecidableEq

/-- `self.initial_ransac_iterations + i * self.ransac_steps`
(stitcher.py line 188). -/
def budgetOf (cfg : StitchCfg) (i : ℤ) : ℤ :=
  cfg.initial_ransac_iterations + i * cfg.ransac_steps

/-- An `ImageRecord` (image_record.py lines 15-45): the original frame, the
warped frame and its grayscale, the placement on the canvas, the homography
used (already composed with the canvas translation), the diagnostic
determinant computed in `__init__`, the always-`None` metadata, and the
clock reading `dt.datetime.now()` (an external clock value). -/
structure StitchRecord (Img : Type) where
  original_image : Img
  warped_image : Img
  warped_gray : Img
  x_warped : ℤ
  y_warped : ℤ
  homography : Mat3
  det : ℚ
  metadata : Option Unit
  timestamp : ℕ
deriving DecidableEq

/-- The mutable state of a `Stitcher` relevant to stitching: the
append-only `history` (an `ImageHistory`, i.e. a list of records,
image_history.py) and the canvas buffer `full_image` (stitcher.py
lines 66-67).  No other field is written by `stitch`. -/
structure StitcherState (Img : Type) where
  history : List (StitchRecord Img)
  full_image : Option Img
deriving DecidableEq

/-- The external collaborators of one `stitch(image, …)` call, all
deterministic functions of their arguments for a fixed call:
`matchesFor whole kind` is `Util.match` on the SIFT keypoints/descriptors of
the current frame against the reference for this pass (`whole = true` means
the reference is the grayscale of the intensity-normalized whole mosaic,
stitcher.py lines 142-148); `ransacResult` abstracts the randomized
`HomographyCalculator.ransac` call; `warp` is `cv2.warpPerspective`;
`toGray` is `cv2.cvtColor(·, COLOR_BGRA2GRAY)`; `pasteGrow` is the
canvas-growth-and-blend part of `__paste_image` for an existing canvas
(its pixel arithmetic is embedded separately as `blendChannel`);
`timestamp` is the clock read when a record is constructed. -/
structure StitchEnv (Img : Type) where
  width : ℕ
  height : ℕ
  currentImage : Img
  currentGray : Img
  matchesFor : Bool → MatcherKind → List Pair
  ransacResult : List Pair → ℤ → ℚ → ℤ → Option Mat3
  warp : Img → Mat3 → ℕ → ℕ → Img
  toGray : Img → Img
  pasteGrow : Img → List (StitchRecord Img) → Img → ℤ → ℤ → Bool → Img × ℤ × ℤ
  timestamp : ℕ

/-- The homography-calculation loop of `stitch` (stitcher.py lines 153-216),
with an explicit fuel.  The loop runs `while i < iterations` starting from
`i = -1` and increments `i` at the top of the body, so the body executes at
most `iterations + 1` times; the fuel used by `stitchLoop` below exceeds
that, so the fuel-exhausted branch is never taken.  Besides the loop result
(the accepted homography and its transformed corners, or `none`), the
function records each attempt in a trace. -/
def stitchLoopGo {Img : Type} (env : StitchEnv Img) (cfg : StitchCfg)
    (whole : Bool) :
    ℕ → ℤ → ℤ → List Attempt → List Attempt × Option (Mat3 × Quad)
  | 0, _, _, tr => (tr, none)
  | fuel + 1, i, rpc, tr =>
    if i < cfg.max_iterations_before_fail then
      if ((env.matchesFor whole (matcherOf (i + 1))).length : ℤ) < clamp4 rpc then
        stitchLoopGo env cfg whole fuel (i + 1) (clamp4 rpc - 4)
          (tr ++ [⟨i + 1, matcherOf (i + 1), clamp4 rpc, none⟩])
      else
        match env.ransacResult (env.matchesFor whole (matcherOf (i + 1)))
            (clamp4 rpc) cfg.ransac_threshold (budgetOf cfg (i + 1)) with
        | none =>
          stitchLoopGo env cfg whole fuel (i + 1) (clamp4 rpc - 4)
            (tr ++ [⟨i + 1, matcherOf (i + 1), clamp4 rpc, some (budgetOf cfg (i + 1))⟩])
        | some H =>
          if areaQuot H env.width env.height < cfg.min_homography_determinant then
            stitchLoopGo env cfg whole fuel (i + 1) (clamp4 rpc)
              (tr ++ [⟨i + 1, matcherOf (i + 1), clamp4 rpc, some (budgetOf cfg (i + 1))⟩])
          else
            (tr ++ [⟨i + 1, matcherOf (i + 1), clamp4 rpc, some (budgetOf cfg (i + 1))⟩],
             some (H, transformedCorners H env.width env.height))
    else (tr, none)

/-- The attempt loop entered as in stitcher.py lines 154-162:
`i = -1`, `random_point_count = initial_random_point_count`. -/
def stitchLoop {Img : Type} (env : StitchEnv Img) (cfg : StitchCfg)
    (whole : Bool) : List Attempt × Option (Mat3 × Quad) :=
  stitchLoopGo env cfg whole (cfg.max_iterations_before_fail.toNat + 2) (-1)
    cfg.initial_random_point_count []

/-- `__paste_image` (stitcher.py lines 279-372) at the level of the
stitcher state: with no canvas yet, the canvas becomes the image verbatim at
`(0, 0)` (lines 297-300); otherwise the canvas is grown and blended by the
abstracted `pasteGrow`. -/
def paste_image {Img : Type} (env : StitchEnv Img) (st : StitcherState Img)
    (image : Img) (x_offset y_offset : ℤ) (whole : Bool) : Img × ℤ × ℤ :=
  match st.full_image with
  | none => (image, 0, 0)
  | some canvas => env.pasteGrow canvas st.history image x_offset y_offset whole

/-- Minimum of the four x-coordinates (`np.min(new_corners[0])`). -/
def quadMinX (q : Quad) : ℚ :=
  min (min q.p1.x q.p2.x) (min q.p3.x q.p4.x)

/-- Maximum of the four x-coordinates. -/
def quadMaxX (q : Quad) : ℚ :=
  max (max q.p1.x q.p2.x) (max q.p3.x q.p4.x)

/-- Minimum of the four y-coordinates. -/
def quadMinY (q : Quad) : ℚ :=
  min (min q.p1.y q.p2.y) (min q.p3.y q.p4.y)

/-- Maximum of the four y-coordinates. -/
def quadMaxY (q : Quad) : ℚ :=
  max (max q.p1.y q.p2.y) (max q.p3.y q.p4.y)

/-- Python's `int()` on a float: truncation toward zero. -/
def truncToInt (q : ℚ) : ℤ :=
  if q < 0 then ⌈q⌉ else ⌊q⌋

/-- The translation matrix of stitcher.py lines 228-232. -/
def translationMat (xo yo : ℚ) : Mat3 :=
  ⟨1, 0, xo, 0, 1, yo, 0, 0, 1⟩

/-- The record appended for the very first frame (stitcher.py
lines 125-135): the preprocessed image itself, placed at `(0, 0)` with the
identity homography. -/
def firstRecord {Img : Type} (env : StitchEnv Img) : StitchRecord Img :=
  { original_image := env.currentImage
    warped_image := env.currentImage
    warped_gray := env.currentGray
    x_warped := 0
    y_warped := 0
    homography := mat3Id
    det := det3 mat3Id
    metadata := none
    timestamp := env.timestamp }

/-- One pass of `stitch` for a non-first frame (stitcher.py lines 138-277,
without the retry of lines 219-222): run the attempt loop; on failure
return `none` without touching the state; on success compute the offsets
and destination size from the transformed corners (lines 225-240), compose
the translation into the homography (line 243), warp (lines 247-251), paste
(lines 255-260, with `int()`-truncated offsets) and append exactly one new
record (lines 265-275). -/
def stitchPass {Img : Type} (env : StitchEnv Img) (cfg : StitchCfg)
    (st : StitcherState Img) (whole : Bool) : Option (StitcherState Img) :=
  match (stitchLoop env cfg whole).2 with
  | none => none
  | some (H, nc) =>
    let x_offset := -(quadMinX nc)
    let y_offset := -(quadMinY nc)
    let h2 := mat3Mul (translationMat x_offset y_offset) H
    let dw := Int.toNat ⌊quadMaxX nc - quadMinX nc⌋
    let dh := Int.toNat ⌊quadMaxY nc - quadMinY nc⌋
    let warped := env.warp env.currentImage h2 dw dh
    let pasted := paste_image env st warped (truncToInt x_offset) (truncToInt y_offset) whole
    some
      { history := st.history ++
          [{ original_image := env.currentImage
             warped_image := warped
             warped_gray := env.toGray warped
             x_warped := pasted.2.1
             y_warped := pasted.2.2
             homography := h2
             det := det3 h2
             metadata := none
             timestamp := env.timestamp }]
        full_image := some pasted.1 }

/-- `Stitcher.stitch` (stitcher.py lines 108-277), returning the success
flag, the updated state, and (as instrumentation) the number of attempt
passes executed.  The first frame is pasted and recorded directly
(lines 123-136).  Otherwise one pass runs; if it fails and the call was
against the previous frame only with the whole-image fallback enabled, the
source recurses once via `return self.stitch(image, True)` (line 221) —
inside that call the guard `not whole_image` is false, so the recursion is
exactly one additional pass with `whole = true`, unfolded here; exhausting
that too returns `False` (line 222) with the state untouched. -/
def stitch {Img : Type} (env : StitchEnv Img) (cfg : StitchCfg)
    (st : StitcherState Img) (whole : Bool) : Bool × StitcherState Img × ℕ :=
  if st.history.length = 0 then
    (true,
     { history := st.history ++ [firstRecord env]
       full_image := some (paste_image env st env.currentImage 0 0 false).1 },
     0)
  else
    match stitchPass env cfg st whole with
    | some st1 => (true, st1, 1)
    | none =>
      if !whole && cfg.stitch_with_whole_image_on_fail then
        match stitchPass env cfg st true with
        | some st2 => (true, st2, 2)
        | none => (false, st, 2)
      else (false, st, 1)

/-- The per-attempt facts claimed of the controller loop: the matcher is the
exhaustive one exactly from the third attempt on, the sample size actually
used never drops below 4, and any RANSAC invocation of the attempt received
the budget `I₀ + i·ΔI`. -/
def attOk (cfg : StitchCfg) (a : Attempt) : Prop :=
  (a.matcher = MatcherKind.bf ↔ 2 ≤ a.i) ∧ 4 ≤ a.rpcUsed ∧
    ∀ n, a.ransacIters = some n →
      n = cfg.initial_ransac_iterations + a.i * cfg.ransac_steps

/-- The flattened identity, an exact null vector of the DLT matrix of
`pts4id` (so a legitimate minimal right singular vector for it, up to the
scale that the normalization by the bottom-right entry cancels). -/
def idVec : List ℚ := [1, 0, 0, 0, 1, 0, 0, 0, 1]

/-- An SVD oracle returning `idVec`. -/
def svdId : List (List ℚ) → List ℚ := fun _ => idVec

/-- Four correspondences of the identity mapping on the unit square — a
non-degenerate configuration whose exact DLT fit is the identity. -/
def pts4id : List Pair :=
  [⟨0, 0, 0, 0⟩, ⟨1, 0, 1, 0⟩, ⟨0, 1, 0, 1⟩, ⟨1, 1, 1, 1⟩]

/-- A full match set: two gross outliers (shifted by 10 in x) followed by
the four identity correspondences. -/
def matches6 : List Pair :=
  [⟨5, 5, 15, 5⟩, ⟨6, 6, 16, 6⟩, ⟨0, 0, 0, 0⟩, ⟨1, 0, 1, 0⟩,
   ⟨0, 1, 0, 1⟩, ⟨1, 1, 1, 1⟩]

/-- The sample drawn in the round considered for claim C2: the four
identity correspondences, sitting at positions 2..5 of `matches6`. -/
def sample4 : List Pair :=
  [⟨0, 0, 0, 0⟩, ⟨1, 0, 1, 0⟩, ⟨0, 1, 0, 1⟩, ⟨1, 1, 1, 1⟩]

/-- A single correspondence — fewer than the 4 required for a well-posed
projective fit. -/
def pSolo : Pair := ⟨0, 0, 0, 0⟩

/-- The ninth standard basis vector, an exact null vector of the DLT matrix
of both `[pSolo]` and `pairs4deg`. -/
def e9Vec : List ℚ := [0, 0, 0, 0, 0, 0, 0, 0, 1]

/-- An SVD oracle returning `e9Vec`. -/
def svd9 : List (List ℚ) → List ℚ := fun _ => e9Vec

/-- The matrix `e9Vec` reshapes to: zero except for a bottom-right 1.  Its
determinant is 0. -/
def hDeg : Mat3 := ⟨0, 0, 0, 0, 0, 0, 0, 0, 1⟩

/-- Four correspondences all mapping to the single point `(0, 0)` — a
degenerate configuration whose DLT matrix has `e9Vec` in its null space. -/
def pairs4deg : List Pair :=
  [⟨0, 0, 0, 0⟩, ⟨1, 0, 0, 0⟩, ⟨0, 1, 0, 0⟩, ⟨1, 1, 0, 0⟩]

/-- A two-pixel image, one black and one white pixel (opaque). -/
def img2 : List PixelN :=
  [⟨0, 0, 0, 255⟩, ⟨255, 255, 255, 255⟩]

/-- The first pixel of `mean_shift_gray img2 200`. -/
def pxW : PixelN := ⟨72, 72, 72, 255⟩

/-- A concrete configuration with the constructor defaults except a small
attempt bound. -/
def cfgW : StitchCfg :=
  { target_image_mean := 110
    legacy_paste := false
    new_image_percentage := 3 / 4
    min_homography_determinant := 1 / 10
    filter_threshold := 13 / 20
    max_iterations_before_fail := 1
    stitch_with_whole_image_on_fail := true
    initial_random_point_count := 4
    ransac_threshold := 1 / 2
    initial_ransac_iterations := 1250
    ransac_steps := 500 }

/-- A concrete environment over trivial images in which matching always
yields the four identity correspondences and RANSAC always fails. -/
def envW : StitchEnv Unit :=
  { width := 2
    height := 2
    currentImage := ()
    currentGray := ()
    matchesFor := fun _ _ => pts4id
    ransacResult := fun _ _ _ _ => none
    warp := fun _ _ _ _ => ()
    toGray := fun _ => ()
    pasteGrow := fun _ _ _ _ _ _ => ((), 0, 0)
    timestamp := 0 }

/-- A concrete environment in which matching never finds a correspondence,
so every attempt of every pass fails with too few matches. -/
def envNoMatch : StitchEnv Unit :=
  { width := 2
    height := 2
    currentImage := ()
    currentGray := ()
    matchesFor := fun _ _ => []
    ransacResult := fun _ _ _ _ => none
    warp := fun _ _ _ _ => ()
    toGray := fun _ => ()
    pasteGrow := fun _ _ _ _ _ _ => ((), 0, 0)
    timestamp := 0 }

/-- A record as appended for a first frame over trivial images. -/
def rec0 : StitchRecord Unit :=
  { original_image := ()
    warped_image := ()
    warped_gray := ()
    x_warped := 0
    y_warped := 0
    homography := mat3Id
    det := det3 mat3Id
    metadata := none
    timestamp := 0 }

/-- A stitcher state holding one frame. -/
def stW : StitcherState Unit := ⟨[rec0], some ()⟩

/-- The first attempt recorded by `stitchLoop envW cfgW false`. -/
def attW9 : Attempt := ⟨0, MatcherKind.flann, 4, some 1250⟩

/-- The second attempt recorded by `stitchLoop envW cfgW false`. -/
def attW10 : Attempt := ⟨1, MatcherKind.flann, 4, some 1750⟩

/-- The clamp of stitcher.py lines 164-165 never lets the used sample size
drop below 4. -/
theorem clamp4_ge (rpc : ℤ) : 4 ≤ clamp4 rpc := by
  unfold clamp4
  split_ifs with h
  · exact le_rfl
  · exact le_of_not_lt h

/-- The matcher chosen at stitcher.py lines 168-170 is the exhaustive one
exactly for attempt indices at least 2. -/
theorem matcherOf_bf_iff (i : ℤ) : matcherOf i = MatcherKind.bf ↔ 2 ≤ i := by
  by_cases h : (2 : ℤ) ≤ i <;> simp [matcherOf, h]

/-- Every attempt entry produced by the loop body satisfies the per-attempt
facts. -/
theorem attOk_mk (cfg : StitchCfg) (i rpc : ℤ) (o : Option ℤ)
    (ho : o = none ∨ o = some (budgetOf cfg i)) :
    attOk cfg ⟨i, matcherOf i, clamp4 rpc, o⟩ := by
  refine ⟨matcherOf_bf_iff i, clamp4_ge rpc, ?_⟩
  intro n hn
  rcases ho with ho | ho
  · rw [ho] at hn
    cases hn
  · rw [ho] at hn
    injection hn with hn'
    subst hn'
    rfl

/-- Invariant of the attempt loop: every attempt ever recorded in the trace
satisfies the per-attempt facts, whatever the fuel and entry state. -/
theorem stitchLoopGo_ok {Img : Type} (env : StitchEnv Img) (cfg : StitchCfg)
    (w : Bool) :
    ∀ fuel : ℕ, ∀ i rpc : ℤ, ∀ tr : List Attempt,
      (∀ a ∈ tr, attOk cfg a) →
      ∀ a ∈ (stitchLoopGo env cfg w fuel i rpc tr).1, attOk cfg a := by
  intro fuel
  induction fuel with
  | zero =>
    intro i rpc tr h a ha
    exact h a ha
  | succ f ih =>
    intro i rpc tr h a ha
    have hext : ∀ (o : Option ℤ), (o = none ∨ o = some (budgetOf cfg (i + 1))) →
        ∀ b ∈ tr ++ [(⟨i + 1, matcherOf (i + 1), clamp4 rpc, o⟩ : Attempt)],
          attOk cfg b := by
      intro o ho b hb
      rcases List.mem_append.mp hb with hb | hb
      · exact h b hb
      · rw [List.mem_singleton] at hb
        subst hb
        exact attOk_mk cfg (i + 1) rpc o ho
    simp only [stitchLoopGo] at ha
    split at ha
    · split at ha
      · exact ih _ _ _ (hext none (Or.inl rfl)) a ha
      · split at ha
        · exact ih _ _ _ (hext _ (Or.inr rfl)) a ha
        · split at ha
          · exact ih _ _ _ (hext _ (Or.inr rfl)) a ha
          · exact hext _ (Or.inr rfl) a ha
    · exact h a ha

/-- A successful pass appends exactly one record to the history, leaving
the existing records in place. -/
theorem stitchPass_history {Img : Type} (env : StitchEnv Img)
    (cfg : StitchCfg) (st : StitcherState Img) (w : Bool)
    (st1 : StitcherState Img) (hp : stitchPass env cfg st w = some st1) :
    ∃ r0, st1.history = st.history ++ [r0] := by
  cases hl : (stitchLoop env cfg w).2 with
  | none =>
    simp only [stitchPass, hl] at hp
    exact Option.noConfusion hp
  | some pr =>
    obtain ⟨H, nc⟩ := pr
    simp only [stitchPass, hl, Option.some.injEq] at hp
    subst hp
    exact ⟨_, rfl⟩

/-- The pre-normalization solver result has bottom-right entry nonzero only
if the normalized result's bottom-right entry is 1. -/
theorem calc_homography_some_a22 (svdLast : List (List ℚ) → List ℚ)
    (pairs : List Pair) (H : Mat3)
    (hres : calculate_homography svdLast pairs = some H)
    (hnz : (mat3OfVec (svdLast (rowsOf pairs))).a22 ≠ 0) : H.a22 = 1 := by
  cases hrows : rowsOf pairs with
  | nil =>
    simp only [calculate_homography, hrows] at hres
    exact Option.noConfusion hres
  | cons r rs =>
    rw [hrows] at hnz
    simp only [calculate_homography, hrows, Option.some.injEq] at hres
    rw [← hres]
    show (mat3OfVec (svdLast (r :: rs))).a22 / (mat3OfVec (svdLast (r :: rs))).a22 = 1
    exact div_self hnz

/-- Claim C1: the spec requires a RANSAC round to be skipped exactly when
the fitted candidate is degenerate, every non-degenerate candidate
proceeding to reprojection scoring.  The guard of homography_calculator.py
line 103, `if np.linalg.matrix_rank(H): continue`, does the opposite: here
the drawn sample is four identity correspondences in general position, the
flattened identity is an exact null vector of their DLT matrix, the fit is
the identity homography of full rank 3, and the round returns the state
unchanged — scoring is never reached, and since the `continue` jumps over
`i += 1`, the loop counter is not advanced either. -/
theorem ransac_skips_full_rank_candidate :
    ((rowsOf pts4id).map (fun r => dotList r idVec) = [0, 0, 0, 0, 0, 0, 0, 0]) ∧
    calculate_homography svdId pts4id = some mat3Id ∧
    mrank3 mat3Id = 3 ∧
    ∀ s : RState, ransacRound svdId matches6 (1 / 2) pts4id s = some s := by
  have hcalc : calculate_homography svdId pts4id = some mat3Id := by
    norm_num [calculate_homography, rowsOf, pts4id, svdId, idVec, mat3OfVec,
      mat3Div, mat3Id]
  have hrank : mrank3 mat3Id = 3 := by
    norm_num [mrank3, det3, mat3Id]
  refine ⟨by norm_num [rowsOf, pts4id, dotList, idVec], hcalc, hrank, fun s => ?_⟩
  have hne : mrank3 mat3Id ≠ 0 := by
    rw [hrank]
    decide
  simp [ransacRound, hcalc, hne]

/-- Claim C2: the spec says a non-skipped round computes reprojection error
for all matches in the FULL set and records as inliers those below the
threshold.  The scoring code (homography_calculator.py lines 106-115)
instead computes the errors over the drawn sample and then indexes the full
`matches` array with those sample-local positions: with two gross outliers
at the front of the full set and the sample drawn from positions 2..5, the
recorded best inlier set is the first four entries of the full set —
including both outliers, whose squared error 100 is far above the
threshold 1/2 — while the inlier set described by the spec is the four
true correspondences. -/
theorem ransac_score_uses_sample_errors :
    calculate_homography_error sample4 mat3Id = [0, 0, 0, 0] ∧
    ransacScore matches6 (1 / 2) sample4 mat3Id ⟨0, 0, none⟩ =
      ⟨1, 4, some [⟨5, 5, 15, 5⟩, ⟨6, 6, 16, 6⟩, ⟨0, 0, 0, 0⟩, ⟨1, 0, 1, 0⟩]⟩ ∧
    spec_inlier_set matches6 mat3Id (1 / 2) =
      [⟨0, 0, 0, 0⟩, ⟨1, 0, 1, 0⟩, ⟨0, 1, 0, 1⟩, ⟨1, 1, 1, 1⟩] ∧
    ([(⟨5, 5, 15, 5⟩ : Pair), ⟨6, 6, 16, 6⟩, ⟨0, 0, 0, 0⟩, ⟨1, 0, 1, 0⟩] ≠
      [(⟨0, 0, 0, 0⟩ : Pair), ⟨1, 0, 1, 0⟩, ⟨0, 1, 0, 1⟩, ⟨1, 1, 1, 1⟩]) ∧
    calculate_homography_error [⟨5, 5, 15, 5⟩] mat3Id = [100] ∧
    ((1 : ℚ) / 2) ≤ 100 := by
  refine ⟨by norm_num [calculate_homography_error, sample4, mat3Id], ?_,
    by norm_num [spec_inlier_set, calculate_homography_error, matches6, mat3Id,
      List.filter],
    by decide,
    by norm_num [calculate_homography_error, mat3Id],
    by norm_num⟩
  norm_num [ransacScore, calculate_homography_error, whereLt, whereLtAux,
    fancyIndex, sample4, matches6, mat3Id]
  decide

/-- Claim C3: the spec requires the solver to demand at least 4
correspondences, failing loudly and immediately with fewer, and to surface
rank-deficient fits.  The code performs no such check: called with a single
correspondence it silently returns a (meaningless, singular) normalized
matrix — here with an SVD oracle whose vector is an exact null vector of
the 2-row DLT matrix. -/
theorem calc_homography_no_arity_check :
    List.length [pSolo] < 4 ∧
    ((rowsOf [pSolo]).map (fun r => dotList r e9Vec) = [0, 0]) ∧
    calculate_homography svd9 [pSolo] = some hDeg := by
  refine ⟨by decide, by norm_num [rowsOf, pSolo, dotList, e9Vec], ?_⟩
  norm_num [calculate_homography, rowsOf, pSolo, svd9, e9Vec, mat3OfVec,
    mat3Div, hDeg]

/-- Claim C4 (counterexample): four correspondences all collapsing to one
point form a degenerate configuration whose DLT matrix has `e9Vec` as an
exact null vector; the solver then returns, as a successful result, a
matrix with determinant 0 — no determinant check exists anywhere on the
success path. -/
theorem calc_homography_zero_det :
    List.length pairs4deg = 4 ∧
    ((rowsOf pairs4deg).map (fun r => dotList r e9Vec) =
      [0, 0, 0, 0, 0, 0, 0, 0]) ∧
    calculate_homography svd9 pairs4deg = some hDeg ∧
    det3 hDeg = 0 := by
  refine ⟨by decide, by norm_num [rowsOf, pairs4deg, dotList, e9Vec], ?_,
    by norm_num [det3, hDeg]⟩
  norm_num [calculate_homography, rowsOf, pairs4deg, svd9, e9Vec, mat3OfVec,
    mat3Div, hDeg]

/-- Claim C4 (amended): whenever the SVD solution's bottom-right entry is
nonzero, both the solver's result and ransac's final refit are normalized
so that the bottom-right entry equals 1.  The zero-determinant half of the
original claim is refuted by `calc_homography_zero_det`: no determinant
check is performed, so a singular matrix can be returned as a successful
result. -/
theorem homography_normalized (svdLast : List (List ℚ) → List ℚ) :
    (∀ pairs H, calculate_homography svdLast pairs = some H →
      (mat3OfVec (svdLast (rowsOf pairs))).a22 ≠ 0 → H.a22 = 1) ∧
    (∀ s best H, s.best_inliers = some best →
      ransacFinal svdLast s = some (some H) →
      (mat3OfVec (svdLast (rowsOf best))).a22 ≠ 0 → H.a22 = 1) := by
  constructor
  · exact fun pairs H h1 h2 => calc_homography_some_a22 svdLast pairs H h1 h2
  · intro s best H hbest hfin hnz
    cases hch : calculate_homography svdLast best with
    | none =>
      simp only [ransacFinal, hbest, hch] at hfin
      exact Option.noConfusion hfin
    | some H1 =>
      have h1 : H1.a22 = 1 := calc_homography_some_a22 svdLast best H1 hch hnz
      simp only [ransacFinal, hbest, hch, Option.some.injEq] at hfin
      rw [← hfin]
      show H1.a22 / H1.a22 = 1
      rw [h1]
      norm_num

/-- Witness for `homography_normalized`: at the identity fit of `pts4id`
the solver's result indeed has bottom-right entry 1. -/
theorem homography_normalized_w : mat3Id.a22 = 1 :=
  (homography_normalized svdId).1 pts4id mat3Id
    (by norm_num [calculate_homography, rowsOf, pts4id, svdId, idVec,
      mat3OfVec, mat3Div, mat3Id])
    (by norm_num [svdId, idVec, mat3OfVec])

/-- Claim C6 (counterexample): take the new pixel (10,0,0,0) and the canvas
pixel (0,20,0,0), both "present" in the spec's any-channel sense.  The
code's elementwise blend returns (10,20,0,0) — each channel where only one
side is nonzero keeps that side — which differs both from the spec's
pixel-level blend `p·new + (1−p)·old` (at the default p = 3/4 that is
(15/2,5,0,0)) and, at p = 1/2, from the exact arithmetic mean (5,10,0,0)
of the two pixels. -/
theorem blend_pixel_counterexample :
    codeBlendPixel (3 / 4) [10, 0, 0, 0] [0, 20, 0, 0] = [10, 20, 0, 0] ∧
    specBlendPixel (3 / 4) [10, 0, 0, 0] [0, 20, 0, 0] = [15 / 2, 5, 0, 0] ∧
    codeBlendPixel (1 / 2) [10, 0, 0, 0] [0, 20, 0, 0] = [10, 20, 0, 0] ∧
    List.zipWith (fun a b => (a + b) / 2) [(10 : ℚ), 0, 0, 0] [0, 20, 0, 0] =
      [5, 10, 0, 0] ∧
    ([10, 20, 0, 0] : List ℚ) ≠ [15 / 2, 5, 0, 0] ∧
    ([10, 20, 0, 0] : List ℚ) ≠ [5, 10, 0, 0] := by
  exact ⟨by norm_num [codeBlendPixel, blendChannel, maskPos],
    by norm_num [specBlendPixel, pixelPresent],
    by norm_num [codeBlendPixel, blendChannel, maskPos],
    by norm_num, by norm_num, by norm_num⟩

/-- Claim C6 (amended): presence in the weighted-overlap blend is decided
per channel element, not per pixel over any channel: for nonnegative
channel values, where both channel values are nonzero the result is
`p·new + (1−p)·old`, where exactly one is nonzero that value wins outright,
and where both are zero the value stays zero; consequently with p = 1/2
every channel position where both images are nonzero receives the exact
arithmetic mean. -/
theorem blendChannel_cases (p n o : ℚ) (hn : 0 ≤ n) (ho : 0 ≤ o) :
    blendChannel p n o =
      (if 0 < n then (if 0 < o then p * n + (1 - p) * o else n)
       else (if 0 < o then o else 0)) ∧
    (0 < n → 0 < o → blendChannel (1 / 2) n o = (n + o) / 2) := by
  have key : ∀ q : ℚ, blendChannel q n o =
      (if 0 < n then (if 0 < o then q * n + (1 - q) * o else n)
       else (if 0 < o then o else 0)) := by
    intro q
    by_cases hn' : 0 < n <;> by_cases ho' : 0 < o
    · rw [if_pos hn', if_pos ho']
      simp only [blendChannel, maskPos, if_pos hn', if_pos ho',
        if_pos (show (1 : ℚ) < 1 + 1 by norm_num)]
      ring
    · have ho0 : o = 0 := le_antisymm (not_lt.mp ho') ho
      subst ho0
      rw [if_pos hn', if_neg ho']
      simp only [blendChannel, maskPos, if_pos hn', if_neg ho',
        if_neg (show ¬ (1 : ℚ) < 1 + 0 by norm_num)]
      ring
    · have hn0 : n = 0 := le_antisymm (not_lt.mp hn') hn
      subst hn0
      rw [if_neg hn', if_pos ho']
      simp only [blendChannel, maskPos, if_neg hn', if_pos ho',
        if_neg (show ¬ (1 : ℚ) < 0 + 1 by norm_num)]
      ring
    · have hn0 : n = 0 := le_antisymm (not_lt.mp hn') hn
      have ho0 : o = 0 := le_antisymm (not_lt.mp ho') ho
      subst hn0
      subst ho0
      rw [if_neg hn', if_neg ho']
      simp only [blendChannel, maskPos, if_neg hn', if_neg ho',
        if_neg (show ¬ (1 : ℚ) < 0 + 0 by norm_num)]
      ring
  refine ⟨key p, fun hn' ho' => ?_⟩
  rw [key (1 / 2), if_pos hn', if_pos ho']
  ring

/-- Witness for `blendChannel_cases`: channels 4 and 2 blend to their mean 3
under p = 1/2. -/
theorem blendChannel_cases_w : blendChannel (1 / 2) 4 2 = 3 := by
  have h := (blendChannel_cases (1 / 2) 4 2 (by norm_num) (by norm_num)).2
    (by norm_num) (by norm_num)
  rw [h]
  norm_num

/-- The clamp keeps shifted channel values at most 255 after the truncating
uint8 store. -/
theorem toU8_clamp_le (x : ℚ) : toU8 (clamp255 x) ≤ 255 := by
  have hle : clamp255 x ≤ 255 := by
    unfold clamp255
    split_ifs with h1 h2
    · norm_num
    · exact le_rfl
    · exact le_of_not_lt h2
  have hfl : ⌊clamp255 x⌋ ≤ 255 := by
    have := Int.floor_mono hle
    simpa using this
  unfold toU8
  omega

/-- Evaluation of `mean_shift_gray` on the black/white two-pixel image with
target mean 200: the black pixel shifts to 72 (72.5 truncated by the uint8
store), the white pixel saturates at 255. -/
theorem mean_shift_img2_eval :
    mean_shift_gray img2 200 = [⟨72, 72, 72, 255⟩, ⟨255, 255, 255, 255⟩] := by
  norm_num [mean_shift_gray, img2, grayMean, grayU8, clamp255, toU8]
  decide

/-- Claim C7 (counterexample): normalizing the two-pixel black/white image
to target mean 200 saturates the white pixel at 255, and the resulting
grayscale mean is 163.5 — off the target by 36.5, far beyond the claimed
±1 tolerance. -/
theorem mean_shift_mean_off :
    mean_shift_gray img2 200 = [⟨72, 72, 72, 255⟩, ⟨255, 255, 255, 255⟩] ∧
    grayMean (mean_shift_gray img2 200) = 327 / 2 ∧
    1 < |grayMean (mean_shift_gray img2 200) - 200| := by
  have hgm : grayMean (mean_shift_gray img2 200) = 327 / 2 := by
    rw [mean_shift_img2_eval]
    norm_num [grayMean, grayU8]
  refine ⟨mean_shift_img2_eval, hgm, ?_⟩
  rw [hgm, abs_of_neg (show (327 : ℚ) / 2 - 200 < 0 by norm_num)]
  norm_num

/-- Claim C7 (amended): brightness normalization is deterministic (a pure
function of the image and target), leaves the alpha channel untouched, and
every color channel of the result lies in [0, 255]; the ±1 grayscale-mean
guarantee of the original claim fails when the shift saturates, as
`mean_shift_mean_off` shows. -/
theorem mean_shift_bounds (img : List PixelN) (d : ℚ) :
    (mean_shift_gray img d).map PixelN.a = img.map PixelN.a ∧
    ∀ px ∈ mean_shift_gray img d, px.b ≤ 255 ∧ px.g ≤ 255 ∧ px.r ≤ 255 := by
  constructor
  · simp only [mean_shift_gray, List.map_map]
    rfl
  · intro px hpx
    simp only [mean_shift_gray, List.mem_map] at hpx
    obtain ⟨q, hq, rfl⟩ := hpx
    exact ⟨toU8_clamp_le _, toU8_clamp_le _, toU8_clamp_le _⟩

/-- Witness for `mean_shift_bounds`: the first result pixel of the
counterexample image is within channel bounds. -/
theorem mean_shift_bounds_w : pxW.b ≤ 255 ∧ pxW.g ≤ 255 ∧ pxW.r ≤ 255 :=
  (mean_shift_bounds img2 200).2 pxW (by
    rw [mean_shift_img2_eval]
    exact List.mem_cons_self _ _)

/-- Claim C5: `stitch` never makes more than two passes; when the pass
against the previous frame fails and the whole-image fallback is enabled,
it makes exactly one additional pass with `whole = true` (the reference
being the grayscale of the intensity-normalized whole mosaic, reflected in
the match oracle's flag), and when that second pass also exhausts all its
attempts it returns the boolean `false` with the state untouched — no
exception. -/
theorem stitch_whole_retry {Img : Type} (env : StitchEnv Img)
    (cfg : StitchCfg) (st : StitcherState Img) (h : st.history ≠ []) :
    (∀ w, (stitch env cfg st w).2.2 ≤ 2) ∧
    (stitchPass env cfg st false = none →
      cfg.stitch_with_whole_image_on_fail = true →
      stitch env cfg st false =
        (match stitchPass env cfg st true with
         | some st2 => (true, st2, 2)
         | none => (false, st, 2))) := by
  have hne : ¬ st.history.length = 0 := by
    simpa [List.length_eq_zero] using h
  constructor
  · intro w
    rw [stitch, if_neg hne]
    cases hp : stitchPass env cfg st w with
    | some st1 =>
      show (1 : ℕ) ≤ 2
      norm_num
    | none =>
      by_cases hf : (!w && cfg.stitch_with_whole_image_on_fail) = true
      · rw [if_pos hf]
        cases hp2 : stitchPass env cfg st true with
        | some st2 =>
          show (2 : ℕ) ≤ 2
          norm_num
        | none =>
          show (2 : ℕ) ≤ 2
          norm_num
      · rw [if_neg hf]
        show (1 : ℕ) ≤ 2
        norm_num
  · intro hp hf
    rw [stitch, if_neg hne]
    simp only [hp, Bool.not_false, Bool.true_and, hf, if_true]

/-- Witness for `stitch_whole_retry`: with no correspondences ever found,
both passes fail and the call returns `false` after exactly two passes,
leaving the state unchanged. -/
theorem stitch_whole_retry_w :
    stitch envNoMatch cfgW stW false = (false, stW, 2) := by
  have h := (stitch_whole_retry envNoMatch cfgW stW (by decide)).2
    (by decide) (by decide)
  rw [h, show stitchPass envNoMatch cfgW stW true = none from by decide]

/-- Claim C8: a `stitch` call returning `true` appends exactly one new
record to the history (preserving all existing records by value), and a
call returning `false` leaves the stitcher state — history and canvas
buffer alike — unchanged. -/
theorem stitch_history_append {Img : Type} (env : StitchEnv Img)
    (cfg : StitchCfg) (st : StitcherState Img) (w : Bool) :
    ((stitch env cfg st w).1 = true →
      ∃ r0, (stitch env cfg st w).2.1.history = st.history ++ [r0]) ∧
    ((stitch env cfg st w).1 = false → (stitch env cfg st w).2.1 = st) := by
  by_cases h0 : st.history.length = 0
  · constructor
    · intro _
      refine ⟨firstRecord env, ?_⟩
      rw [stitch, if_pos h0]
    · intro hf
      rw [stitch, if_pos h0] at hf
      exact Bool.noConfusion hf
  · rw [stitch, if_neg h0]
    cases hp : stitchPass env cfg st w with
    | some st1 =>
      constructor
      · intro _
        exact stitchPass_history env cfg st w st1 hp
      · intro hf
        exact Bool.noConfusion hf
    | none =>
      by_cases hb : (!w && cfg.stitch_with_whole_image_on_fail) = true
      · rw [if_pos hb]
        cases hp2 : stitchPass env cfg st true with
        | some st2 =>
          constructor
          · intro _
            exact stitchPass_history env cfg st true st2 hp2
          · intro hf
            exact Bool.noConfusion hf
        | none =>
          exact ⟨fun hT => Bool.noConfusion hT, fun _ => rfl⟩
      · rw [if_neg hb]
        exact ⟨fun hT => Bool.noConfusion hT, fun _ => rfl⟩

/-- Witness for `stitch_history_append`: a doubly failing call leaves the
state exactly as it was. -/
theorem stitch_history_append_w :
    (stitch envNoMatch cfgW stW false).2.1 = stW :=
  (stitch_history_append envNoMatch cfgW stW false).2 (by decide)

/-- Claim C9: every recorded attempt of the controller loop used the
approximate matcher for indices below 2 and the exhaustive one from index 2
on, and every RANSAC invocation of attempt i received the iteration budget
`initial_ransac_iterations + i * ransac_steps`. -/
theorem stitch_attempt_strategy_budget {Img : Type} (env : StitchEnv Img)
    (cfg : StitchCfg) (w : Bool) :
    ∀ a ∈ (stitchLoop env cfg w).1,
      (a.matcher = MatcherKind.bf ↔ 2 ≤ a.i) ∧
      ∀ n, a.ransacIters = some n →
        n = cfg.initial_ransac_iterations + a.i * cfg.ransac_steps := by
  intro a ha
  have h := stitchLoopGo_ok env cfg w
    (cfg.max_iterations_before_fail.toNat + 2) (-1)
    cfg.initial_random_point_count []
    (fun b hb => absurd hb (List.not_mem_nil b)) a ha
  exact ⟨h.1, h.2.2⟩

/-- Witness for `stitch_attempt_strategy_budget`: the first attempt of a
concrete run had index 0 and received the default initial budget 1250. -/
theorem stitch_attempt_strategy_budget_w :
    (1250 : ℤ) = cfgW.initial_ransac_iterations + attW9.i * cfgW.ransac_steps :=
  (stitch_attempt_strategy_budget envW cfgW false attW9 (by decide)).2
    1250 (by decide)

/-- Claim C10: the sample size actually used by every attempt — compared
against the match count and passed to RANSAC — is at least 4, because the
clamp of stitcher.py lines 164-165 runs before every use, even though the
decrements on failure can push the stored value below 4. -/
theorem stitch_sample_size_floor {Img : Type} (env : StitchEnv Img)
    (cfg : StitchCfg) (w : Bool) :
    ∀ a ∈ (stitchLoop env cfg w).1, 4 ≤ a.rpcUsed := by
  intro a ha
  have h := stitchLoopGo_ok env cfg w
    (cfg.max_iterations_before_fail.toNat + 2) (-1)
    cfg.initial_random_point_count []
    (fun b hb => absurd hb (List.not_mem_nil b)) a ha
  exact h.2.1

/-- Witness for `stitch_sample_size_floor`: the second attempt of a
concrete run, reached after a decrement to 0, still used sample size 4. -/
theorem stitch_sample_size_floor_w : (4 : ℤ) ≤ attW10.rpcUsed :=
  stitch_sample_size_floor envW cfgW false attW10 (by decide)


end TutgakStitcher
